import Mathlib

/-!
# Verification of the terminal-portfolio command dispatch and incremental renderer

Shallow embedding of `src/client/src/lib/commands.ts`,
`src/client/src/lib/formatting.ts` (glued into `Terminal.tsx` in this checkout) and
`src/client/src/components/Terminal.tsx` (the FormattedOutput-based variant, whose
line numbers the claims cite).

JavaScript strings are modelled as lists of UTF-16 code units (`JSString`),
because the renderer indexes strings by code unit (`contentStr[i]`,
`segmentText[currentCharIndex]`) and `.length` counts code units.
`Math.floor(Math.random() * n)` at the k-th call of a handler invocation is
modelled as `r k % n` for an arbitrary draw stream `r : Nat → Nat`.
-/

/-- A JavaScript string: the list of its UTF-16 code units. -/
abbrev JSString := List Nat

/-- UTF-16 encoding of one Unicode scalar value (surrogate pair outside the BMP). -/
def utf16Char (c : Char) : List Nat :=
  if c.toNat < 0x10000 then [c.toNat]
  else [0xD800 + (c.toNat - 0x10000) / 0x400, 0xDC00 + (c.toNat - 0x10000) % 0x400]

/-- Embed a Lean string literal as a JavaScript string (UTF-16 code units). -/
def ofStr (s : String) : JSString :=
  (s.data.map utf16Char).flatten

/-- `String.prototype.toLowerCase`, restricted to ASCII.  Every command token,
registry key and sentinel in this program is ASCII, so the restriction is
faithful on all strings the dispatcher compares. -/
def lowerUnit (u : Nat) : Nat :=
  if 65 ≤ u ∧ u ≤ 90 then u + 32 else u

/-- ASCII lowercasing of a JS string (`input.trim().toLowerCase()` uses this). -/
def toLowerJS (s : JSString) : JSString := s.map lowerUnit

/-- `String.prototype.toUpperCase`, restricted to ASCII (used by `createHeader`). -/
def upperUnit (u : Nat) : Nat :=
  if 97 ≤ u ∧ u ≤ 122 then u - 32 else u

/-- ASCII uppercasing of a JS string. -/
def toUpperJS (s : JSString) : JSString := s.map upperUnit

/-- The ECMAScript WhiteSpace and LineTerminator code units stripped by
`String.prototype.trim`. -/
def isJSWhitespace (u : Nat) : Bool :=
  u = 0x09 ∨ u = 0x0A ∨ u = 0x0B ∨ u = 0x0C ∨ u = 0x0D ∨ u = 0x20 ∨
  u = 0xA0 ∨ u = 0x1680 ∨ (0x2000 ≤ u ∧ u ≤ 0x200A) ∨ u = 0x2028 ∨
  u = 0x2029 ∨ u = 0x202F ∨ u = 0x205F ∨ u = 0x3000 ∨ u = 0xFEFF

/-- `String.prototype.trim`: strip whitespace from both ends. -/
def trimJS (s : JSString) : JSString :=
  ((s.dropWhile isJSWhitespace).reverse.dropWhile isJSWhitespace).reverse

/-- `String.prototype.split(str)` for the single-character separator `str = ' '`
(code unit 32).  Splits on the space character only — not on general whitespace —
and always returns at least one (possibly empty) token. -/
def splitSpace (s : JSString) : List JSString :=
  go s []
where
  go : List Nat → List Nat → List (List Nat)
  | [], acc => [acc.reverse]
  | u :: rest, acc => if u = 32 then acc.reverse :: go rest [] else go rest (u :: acc)

/-- `Array.prototype.join(sep)` for `sep = ' '`. -/
def joinSpace : List JSString → JSString
  | [] => []
  | [x] => x
  | x :: xs => x ++ 32 :: joinSpace xs

/-- Decimal rendering of a natural number with explicit fuel, mirroring JS
number-to-string interpolation for the small non-negative integers this
program produces. -/
def natStrAux : Nat → Nat → JSString
  | 0, _ => []
  | fuel + 1, n => if n < 10 then [48 + n] else natStrAux fuel (n / 10) ++ [48 + n % 10]

/-- `${n}` for a natural number `n`. -/
def natStr (n : Nat) : JSString := natStrAux (n + 1) n

/-- `String.prototype.includes`: substring test. -/
def containsSub (hay needle : JSString) : Bool :=
  (List.range (hay.length + 1)).any fun i => needle.isPrefixOf (hay.drop i)

/-- `String.prototype.padEnd(n)` (space padding). -/
def padEnd (s : JSString) (n : Nat) : JSString :=
  s ++ List.replicate (n - s.length) 32

/-! ## The text segment model (`formatting.ts`) -/

/-- `TerminalColor` from `formatting.ts`. -/
inductive TerminalColor where
  | primary | secondary | accent | warning | error | muted | default
deriving DecidableEq, Repr

/-- `TextSegment` from `formatting.ts`; optional fields stay optional because
some constructors (`createLink`, `createListItem`) omit `bold`. -/
structure TextSegment where
  text : JSString
  color : Option TerminalColor
  bold : Option Bool
  url : Option JSString
deriving DecidableEq, Repr

/-- The `text.primary` helper: `{ text, color: 'primary', bold }`. -/
def text.primary (s : JSString) (b : Bool) : TextSegment :=
  ⟨s, some .primary, some b, none⟩

/-- The `text.secondary` helper. -/
def text.secondary (s : JSString) (b : Bool) : TextSegment :=
  ⟨s, some .secondary, some b, none⟩

/-- The `text.accent` helper. -/
def text.accent (s : JSString) (b : Bool) : TextSegment :=
  ⟨s, some .accent, some b, none⟩

/-- The `text.warning` helper. -/
def text.warning (s : JSString) (b : Bool) : TextSegment :=
  ⟨s, some .warning, some b, none⟩

/-- The `text.error` helper. -/
def text.error (s : JSString) (b : Bool) : TextSegment :=
  ⟨s, some .error, some b, none⟩

/-- The `text.muted` helper. -/
def text.muted (s : JSString) (b : Bool) : TextSegment :=
  ⟨s, some .muted, some b, none⟩

/-- The `text.default` helper. -/
def text.defaultC (s : JSString) (b : Bool) : TextSegment :=
  ⟨s, some .default, some b, none⟩

/-- `formatToString`: concatenate segment texts. -/
def formatToString (l : List TextSegment) : JSString :=
  (l.map TextSegment.text).flatten

/-- `createHeader` from `formatting.ts`. -/
def createHeader (title : JSString) : List TextSegment :=
  [text.primary (toUpperJS title) true, text.defaultC (ofStr "\n\n") false]

/-- `createLink` from `formatting.ts`; the url segment carries no `bold` field. -/
def createLink (label url : JSString) : List TextSegment :=
  [text.primary (padEnd label 14) false,
   ⟨url, some .secondary, none, some url⟩,
   text.defaultC (ofStr "\n") false]

/-- `createListItem` from `formatting.ts`, specialised to the always-provided
`description` and `link` arguments used by the `projects` handler. -/
def createListItem (number : Nat) (title description link : JSString) : List TextSegment :=
  [text.defaultC (ofStr "\n") false,
   text.primary (ofStr "[" ++ natStr number ++ ofStr "] ") true,
   text.primary title true,
   text.defaultC (ofStr "\n") false,
   text.muted (ofStr "    " ++ description) false,
   text.defaultC (ofStr "\n") false,
   text.muted (ofStr "    🔗 ") false,
   ⟨link, some .secondary, none, some link⟩,
   text.defaultC (ofStr "\n") false]

/-- `createBullet` from `formatting.ts`. -/
def createBullet (label value : JSString) : List TextSegment :=
  [text.primary (ofStr "  ▸ " ++ label ++ ofStr ": ") true,
   text.defaultC value false,
   text.defaultC (ofStr "\n") false]

/-- `combine(...outputs)`: flatten the argument lists. -/
def combine (outputs : List (List TextSegment)) : List TextSegment :=
  outputs.flatten

/-- The `string | FormattedOutput` union used for command content and for a
line's `content`/`displayedContent`. -/
inductive JSContent where
  | str (s : JSString)
  | fmt (l : List TextSegment)
deriving DecidableEq, Repr

instance : Inhabited JSContent := ⟨.str []⟩

/-- The flattened plain text of a content value. -/
def contentUnits : JSContent → JSString
  | .str s => s
  | .fmt l => formatToString l

/-- `CommandOutput` from `commands.ts`. -/
structure CommandOutput where
  content : JSContent
  error : Bool
deriving DecidableEq, Repr

/-! ## The command registry (`commands.ts`, FormattedOutput variant) -/

/-- Draw stream for `Math.random`: the k-th `Math.floor(Math.random() * n)`
of a handler invocation is modelled as `r k % n`. -/
abbrev RandStream := Nat → Nat

/-- A registry handler: receives the draw stream and the argument tokens and
either returns a `CommandOutput` or raises a failure with a message (the
`throw` caught by `getCommandOutput`'s try/catch). -/
abbrev Handler := RandStream → List JSString → Except JSString CommandOutput

/-- Output of the `help` handler. -/
def helpOut : List TextSegment :=
  combine
    [createHeader (ofStr "AVAILABLE COMMANDS"),
     [text.primary (ofStr "about       ") true,
      text.defaultC (ofStr "- Learn about me\n") false,
      text.primary (ofStr "blog        ") true,
      text.defaultC (ofStr "- View my blog posts\n") false,
      text.primary (ofStr "social      ") true,
      text.defaultC (ofStr "- Display social network links\n") false,
      text.primary (ofStr "projects    ") true,
      text.defaultC (ofStr "- View my coding projects\n") false,
      text.primary (ofStr "stack       ") true,
      text.defaultC (ofStr "- View my current tech stack\n") false,
      text.primary (ofStr "videos      ") true,
      text.defaultC (ofStr "- View my YouTube videos\n") false,
      text.primary (ofStr "podcasts    ") true,
      text.defaultC (ofStr "- View my Spotify podcast episodes\n") false,
      text.primary (ofStr "resume      ") true,
      text.defaultC (ofStr "- Get my online resume link\n") false,
      text.primary (ofStr "history     ") true,
      text.defaultC (ofStr "- View command history\n") false,
      text.primary (ofStr "email       ") true,
      text.defaultC (ofStr "- See my email address\n") false,
      text.primary (ofStr "sudo        ") true,
      text.defaultC (ofStr "- Execute a command as another user\n") false,
      text.primary (ofStr "clear       ") true,
      text.defaultC (ofStr "- Clear terminal screen\n") false,
      text.primary (ofStr "reload      ") true,
      text.defaultC (ofStr "- Reload page and clear history\n") false,
      text.primary (ofStr "help        ") true,
      text.defaultC (ofStr "- Show this help message\n") false,
      text.defaultC (ofStr "\n") false,
      text.muted (ofStr "Type any command to execute it.\n") false]]

/-- `PORTFOLIO_DATA.about.description` (a template literal; the file stores the
accented characters in mojibake form, reproduced here code point for code
point). -/
def aboutDescription : JSString :=
  ofStr "I\x27m a PhD student in Computer Science, specializing in Biotechnology \n    with expertise in modern technologies. I love creating elegant solutions to complex\n    problems and building beautiful, performant applications."

/-- Output of the `about` handler. -/
def aboutOut : List TextSegment :=
  combine
    [createHeader (ofStr "ABOUT ME"),
     [text.defaultC (aboutDescription ++ ofStr "\n\n") false,
      text.primary (ofStr "Skills: ") true,
      text.accent (ofStr "Python, C++, Rust, JavaScript, Go, Ruby\n") false,
      text.primary (ofStr "Location: ") true,
      text.defaultC (ofStr "Bras√≠lia, Brazil\n") false]]

/-- Output of the `email` handler (the emoji literal is stored mojibake in the
file as the three code units ü ì ß). -/
def emailOut : List TextSegment :=
  [text.primary (ofStr "üìß Email: ") true,
   text.secondary (ofStr "viniciusmanoel@duck.com") false,
   text.defaultC (ofStr "\n") false]

/-- Output of the `social` handler. -/
def socialOut : List TextSegment :=
  combine
    [createHeader (ofStr "SOCIAL NETWORKS"),
     createLink (ofStr "GitHub:") (ofStr "https://github.com/vncsmnl"),
     createLink (ofStr "LinkedIn:") (ofStr "https://linkedin.com/in/vncsmnl"),
     createLink (ofStr "Twitter:") (ofStr "https://twitter.com/vncsmnl"),
     createLink (ofStr "Portfolio:") (ofStr "https://vini.thedev.id/"),
     createLink (ofStr "Linktree:") (ofStr "https://vinicius.is-a.dev/")]

/-- Output of the `projects` handler: one `createListItem` per configured
project, numbered from 1. -/
def projectsOut : List TextSegment :=
  combine
    [createHeader (ofStr "MY PROJECTS"),
     createListItem 1 (ofStr "astar_msa_rust")
       (ofStr "PA-Star is a software that performs a parallel A-Star search to solve the Multiple Sequence Alignment (MSA) problem.")
       (ofStr "https://github.com/vncsmnl/astar_msa_rust") ++
     createListItem 2 (ofStr "pa-star-rv")
       (ofStr "An interactive 3D visualization tool for analyzing execution logs from the PA-Star (Parallel A-Star) algorithm applied to the Multiple Sequence Alignment (MSA) problem.")
       (ofStr "https://github.com/vncsmnl/pa-star-rv") ++
     createListItem 3 (ofStr "msa_app")
       (ofStr "A web-based interface for running Multiple Sequence Alignment (MSA) using A-Star and PA-Star algorithms.")
       (ofStr "https://github.com/vncsmnl/msa_app")]

/-- Output of the `stack` handler. -/
def stackOut : List TextSegment :=
  combine
    [createHeader (ofStr "TECH STACK"),
     createBullet (ofStr "Frontend") (ofStr "React, TypeScript, Tailwind CSS") ++
     createBullet (ofStr "Backend") (ofStr "Node.js, Bun, FastAPI, Flask") ++
     createBullet (ofStr "Frameworks") (ofStr "LangChain, CrewAI, OpenAI API, Hugging Face") ++
     createBullet (ofStr "Database") (ofStr "PostgreSQL, SQLite, FAISS") ++
     createBullet (ofStr "DevOps") (ofStr "Docker, GitHub Actions, AWS, Kubernetes") ++
     createBullet (ofStr "Tools") (ofStr "Git, Latex, Ollama, ")]

/-- Output of the `blog` handler. -/
def blogOut : List TextSegment :=
  combine
    [createHeader (ofStr "MY BLOG"),
     [text.defaultC (ofStr "Check my articles about web\n") false,
      text.defaultC (ofStr "development, best practices, and tech insights.\n\n") false],
     createLink (ofStr "Blog:") (ofStr "https://vini.thedev.id/blog/")]

/-- Output of the `videos` handler. -/
def videosOut : List TextSegment :=
  combine
    [createHeader (ofStr "YOUTUBE VIDEOS"),
     [text.defaultC (ofStr "Subscribe to my channel for tutorials and\n") false,
      text.defaultC (ofStr "tech content.\n\n") false],
     createLink (ofStr "YouTube:") (ofStr "https://youtube.com/@vncsmnl")]

/-- Output of the `podcasts` handler. -/
def podcastsOut : List TextSegment :=
  combine
    [createHeader (ofStr "SPOTIFY PODCASTS"),
     [text.defaultC (ofStr "Coming soon! Listen to my podcast episodes on Spotify.\n\n") false],
     createLink (ofStr "Spotify:") (ofStr "https://spotify.com/vncsmnl")]

/-- Output of the `resume` handler. -/
def resumeOut : List TextSegment :=
  combine
    [createHeader (ofStr "RESUME"),
     createLink (ofStr "Download:") (ofStr "https://vinicius.is-a.dev/cv/pdf"),
     createLink (ofStr "View online:") (ofStr "https://vinicius.is-a.dev/cv/")]

/-- Output of the `history` handler (the arrow glyphs are stored mojibake in
the file as the unit sequences ‚ Ü ë and ‚ Ü ì). -/
def historyOut : List TextSegment :=
  combine
    [createHeader (ofStr "COMMAND HISTORY"),
     [text.defaultC (ofStr "Use arrow keys ") false,
      text.primary (ofStr "(‚Üë ‚Üì)") true,
      text.defaultC (ofStr " to navigate through command history.\n") false]]

/-- The 54-entry fake package list inside the `sudo` handler. -/
def sudoPackages : List JSString :=
  [ofStr "react", ofStr "typescript", ofStr "vite", ofStr "tailwindcss", ofStr "nodejs",
   ofStr "npm", ofStr "webpack",
   ofStr "babel", ofStr "eslint", ofStr "prettier", ofStr "jest", ofStr "cypress",
   ofStr "docker", ofStr "kubernetes",
   ofStr "postgresql", ofStr "mongodb", ofStr "redis", ofStr "nginx", ofStr "apache",
   ofStr "git", ofStr "github-cli",
   ofStr "python", ofStr "pip", ofStr "django", ofStr "flask", ofStr "fastapi",
   ofStr "express", ofStr "nestjs",
   ofStr "nextjs", ofStr "gatsby", ofStr "nuxt", ofStr "vue", ofStr "angular",
   ofStr "svelte", ofStr "solid",
   ofStr "prisma", ofStr "graphql", ofStr "apollo", ofStr "trpc", ofStr "zod",
   ofStr "yup", ofStr "formik",
   ofStr "axios", ofStr "fetch", ofStr "websocket", ofStr "socket.io", ofStr "webrtc",
   ofStr "pwa",
   ofStr "electron", ofStr "tauri", ofStr "capacitor", ofStr "react-native",
   ofStr "expo", ofStr "flutter"]

/-- A fake version string `${a%5+1}.${b%20}.${c%10}` from three draws. -/
def versionStr (a b c : Nat) : JSString :=
  natStr (a % 5 + 1) ++ ofStr "." ++ natStr (b % 20) ++ ofStr "." ++ natStr (c % 10)

/-- One `Get:` row of `generateUpdateLines`; draws `1 + 8*i` through `8 + 8*i`
of the stream (one draw for the package index, three per version, one for the
size, in source order). -/
def sudoRow (r : RandStream) (i : Nat) : List TextSegment :=
  let base := 1 + 8 * i
  let pkg := sudoPackages.getD (r base % sudoPackages.length) []
  let oldVersion := versionStr (r (base + 1)) (r (base + 2)) (r (base + 3))
  let newVersion := versionStr (r (base + 4)) (r (base + 5)) (r (base + 6))
  let size := r (base + 7) % 500 + 50
  [text.defaultC (ofStr "Get:" ++ natStr (i + 1) ++ ofStr " ") false,
   text.accent (ofStr "stable/main ") true,
   text.defaultC (pkg ++ ofStr " ") false,
   text.muted (oldVersion ++ ofStr " -> ") false,
   text.primary newVersion true,
   text.defaultC (ofStr " [" ++ natStr size ++ ofStr " kB]\n") false]

/-- `generateUpdateLines` from the `sudo` handler.  Draw 0 is `numPackages`
(5–12); the rows use draws `1 .. 8*numPackages`; the fetch summary uses the two
following draws.  `time` is `Math.floor(totalSize / speed)`, i.e. `Nat` division.
The check-mark literal is stored mojibake in the file as the units ‚ ú ì. -/
def sudoUpdateLines (r : RandStream) : List TextSegment :=
  let numPackages := r 0 % 8 + 5
  let totalSize := r (1 + 8 * numPackages) % 5000 + 1000
  let speed := r (2 + 8 * numPackages) % 3000 + 500
  let time := totalSize / speed
  ((List.range numPackages).map (sudoRow r)).flatten ++
  [text.defaultC (ofStr "\nFetched ") false,
   text.primary (natStr totalSize ++ ofStr " kB") true,
   text.defaultC (ofStr " in ") false,
   text.accent (natStr time ++ ofStr "s") true,
   text.defaultC (ofStr " (") false,
   text.secondary (natStr speed ++ ofStr " kB/s") false,
   text.defaultC (ofStr ")\n\n") false] ++
  [text.defaultC (ofStr "Reading package lists... ") false,
   text.accent (ofStr "Done\n") true] ++
  [text.defaultC (ofStr "Building dependency tree... ") false,
   text.accent (ofStr "Done\n") true] ++
  [text.defaultC (ofStr "Reading state information... ") false,
   text.accent (ofStr "Done\n") true] ++
  [text.accent (ofStr "\n‚úì All packages are up to date!\n") true]

/-- The `sudo` handler's update detection: the lowercased space-joined argument
string contains `update`, `upgrade` or `install`, or there are no arguments. -/
def sudoIsUpdate (args : List JSString) : Bool :=
  let fullCommand := toLowerJS (joinSpace args)
  containsSub fullCommand (ofStr "update") || containsSub fullCommand (ofStr "upgrade") ||
    containsSub fullCommand (ofStr "install") || args.isEmpty

/-- The `sudo` handler.  Both branches return `error: false`; the non-update
branch echoes `args[0]` in a `sudo: <arg>: command not found` message (that
branch is only reachable with non-empty `args`, so `headD` is faithful). -/
def sudoOutput (r : RandStream) (args : List JSString) : CommandOutput :=
  if sudoIsUpdate args then
    { content := .fmt (combine
        [[text.primary (ofStr "[sudo] ") true,
          text.defaultC (ofStr "password for user: ") false],
         [text.muted (ofStr "***************\n\n") false],
         [text.accent (ofStr "Reading package lists... Done\n") true],
         [text.defaultC (ofStr "Building dependency tree\n") false],
         [text.defaultC (ofStr "Reading state information... Done\n\n") false],
         sudoUpdateLines r]),
      error := false }
  else
    { content := .fmt
        [text.primary (ofStr "[sudo] ") true,
         text.defaultC (ofStr "password for user: ") false,
         text.muted (ofStr "***************\n\n") false,
         text.error (ofStr "sudo: " ++ args.headD [] ++ ofStr ": command not found\n") false],
      error := false }

/-- Wrap a fixed segment list as a non-failing handler (all static handlers). -/
def pureHandler (out : List TextSegment) : Handler :=
  fun _ _ => .ok { content := .fmt out, error := false }

/-- The `commands` registry object, in source declaration order. -/
def commandsList : List (JSString × Handler) :=
  [(ofStr "help", pureHandler helpOut),
   (ofStr "about", pureHandler aboutOut),
   (ofStr "email", pureHandler emailOut),
   (ofStr "social", pureHandler socialOut),
   (ofStr "projects", pureHandler projectsOut),
   (ofStr "stack", pureHandler stackOut),
   (ofStr "blog", pureHandler blogOut),
   (ofStr "videos", pureHandler videosOut),
   (ofStr "podcasts", pureHandler podcastsOut),
   (ofStr "resume", pureHandler resumeOut),
   (ofStr "history", pureHandler historyOut),
   (ofStr "sudo", fun r args => .ok (sudoOutput r args)),
   (ofStr "clear", fun _ _ => .ok { content := .str (ofStr "CLEAR"), error := false }),
   (ofStr "reload", fun _ _ => .ok { content := .str (ofStr "RELOAD"), error := false })]

/-- `command in commands` plus `commands[command]`: first association with the
given key. -/
def lookupJS : List (JSString × Handler) → JSString → Option Handler
  | [], _ => none
  | (k, v) :: rest, cmd => if cmd = k then some v else lookupJS rest cmd

/-- Lines 341–342 of `commands.ts`:
`const trimmed = input.trim().toLowerCase(); const [command, ...args] = trimmed.split(' ')`.
Note the whole input is lowercased before splitting. -/
def parseInput (input : JSString) : JSString × List JSString :=
  match splitSpace (toLowerJS (trimJS input)) with
  | [] => ([], [])
  | c :: args => (c, args)

/-- `getCommandOutput`, parametrised by the registry (the sentinel branches run
before any registry lookup; a handler failure is caught and converted to an
error-flagged result carrying the failure's message). -/
def getCommandOutputWith (registry : List (JSString × Handler)) (r : RandStream)
    (input : JSString) : CommandOutput :=
  let command := (parseInput input).1
  let args := (parseInput input).2
  if command = ofStr "clear" then { content := .str (ofStr "CLEAR"), error := false }
  else if command = ofStr "reload" then { content := .str (ofStr "RELOAD"), error := false }
  else
    match lookupJS registry command with
    | some handler =>
      match handler r args with
      | .ok out => out
      | .error msg =>
        { content := .fmt
            [text.error (ofStr "Error executing command: ") false,
             text.error msg false,
             text.defaultC (ofStr "\n") false],
          error := true }
    | none =>
      { content := .fmt
          [text.error (ofStr "Command not found: " ++ command ++ ofStr ". ") false,
           text.defaultC (ofStr "Type ") false,
           text.primary (ofStr "help") true,
           text.defaultC (ofStr " for available commands.\n") false],
        error := true }

/-- `getCommandOutput` with the program's own registry. -/
def getCommandOutputR (r : RandStream) (input : JSString) : CommandOutput :=
  getCommandOutputWith commandsList r input

/-- The own property names of `Object.prototype` (ECMA-262).  The JavaScript
`in` operator at line 354 (`command in commands`) also finds these inherited
properties on the plain-object registry. -/
def protoOwnNames : List JSString :=
  [ofStr "constructor", ofStr "hasOwnProperty", ofStr "isPrototypeOf",
   ofStr "propertyIsEnumerable", ofStr "toLocaleString", ofStr "toString",
   ofStr "valueOf", ofStr "__defineGetter__", ofStr "__defineSetter__",
   ofStr "__lookupGetter__", ofStr "__lookupSetter__", ofStr "__proto__"]

/-- The host engine's `TypeError` message for calling the non-callable
`commands['__proto__']`; the exact text is engine-specific (V8's shown).  No
theorem depends on this text. -/
def protoTypeErrorMessage : JSString := ofStr "commands[command] is not a function"

/-- Result of the full dispatch: either a returned value whose
`content`/`error` fields are as modelled, or — for the inherited
`constructor` hit — the bare argument array itself (`Object(args)` returns its
object argument unchanged), a value with no `content` or `error` fields at
all. -/
inductive DispatchResult where
  | out (o : CommandOutput)
  | rawArgs (args : List JSString)
deriving DecidableEq, Repr

/-- `getCommandOutput` with the JavaScript `in` operator modelled in full:
`command in commands` is also true for the properties the registry object
inherits from `Object.prototype`, and own keys shadow inherited ones.  The
command token is produced by `toLowerCase` and so never contains an uppercase
ASCII unit (`parseInput_no_upper`); among `Object.prototype`'s own property
names only `constructor` and `__proto__` are free of uppercase ASCII
(`proto_reachable_only_two`), so exactly those two inherited hits are
reachable and are modelled explicitly: `commands['constructor']` is the
inherited `Object` constructor, and `await Object(args)` returns the argument
array itself (no throw, no `content`/`error` fields); `commands['__proto__']`
is `Object.prototype`, which is not callable, so the call throws a `TypeError`
inside the `try` and the catch converts it to an error result carrying the
engine's message. -/
def getCommandOutputJS (registry : List (JSString × Handler)) (r : RandStream)
    (input : JSString) : DispatchResult :=
  let command := (parseInput input).1
  let args := (parseInput input).2
  if command = ofStr "clear" then
    .out { content := .str (ofStr "CLEAR"), error := false }
  else if command = ofStr "reload" then
    .out { content := .str (ofStr "RELOAD"), error := false }
  else
    match lookupJS registry command with
    | some handler =>
      match handler r args with
      | .ok out => .out out
      | .error msg =>
        .out
          { content := .fmt
              [text.error (ofStr "Error executing command: ") false,
               text.error msg false,
               text.defaultC (ofStr "\n") false],
            error := true }
    | none =>
      if command = ofStr "constructor" then .rawArgs args
      else if command = ofStr "__proto__" then
        .out
          { content := .fmt
              [text.error (ofStr "Error executing command: ") false,
               text.error protoTypeErrorMessage false,
               text.defaultC (ofStr "\n") false],
            error := true }
      else
        .out
          { content := .fmt
              [text.error (ofStr "Command not found: " ++ command ++ ofStr ". ") false,
               text.defaultC (ofStr "Type ") false,
               text.primary (ofStr "help") true,
               text.defaultC (ofStr " for available commands.\n") false],
            error := true }

/-! ## The incremental renderer (`Terminal.tsx`, `renderOutputLine`) -/

/-- The successive values of `displayedSegments` captured by `setLines` in the
segment branch of `renderOutputLine`: `done` holds the fully revealed source
segments (empty-text segments are pushed but produce no update of their own),
and each update appends one more code unit of the active segment. -/
def fmtTicks (done : List TextSegment) : List TextSegment → List (List TextSegment)
  | [] => []
  | s :: ss =>
    (List.range s.text.length).map
        (fun i => done ++ [{ s with text := s.text.take (i + 1) }]) ++
      fmtTicks (done ++ [s]) ss

/-- The sequence of `displayedContent` values produced by `renderOutputLine`
for one content value: one update per code unit, for both branches. -/
def revealTicks : JSContent → List JSContent
  | .str s => (List.range s.length).map (fun i => .str (s.take (i + 1)))
  | .fmt l => (fmtTicks [] l).map .fmt

/-- Prefix order on revealed segment lists: the later list extends the earlier
one segment index ascending, then code-unit index within the active segment
(the earlier list is some full segments followed by at most one partially
revealed segment with matching style fields). -/
def SegsLE : List TextSegment → List TextSegment → Prop
  | [], _ => True
  | _ :: _, [] => False
  | a :: as, b :: bs =>
    (a = b ∧ SegsLE as bs) ∨
      (as = [] ∧ a.color = b.color ∧ a.bold = b.bold ∧ a.url = b.url ∧ a.text <+: b.text)

instance SegsLE.dec : (a b : List TextSegment) → Decidable (SegsLE a b)
  | [], _ => .isTrue trivial
  | _ :: _, [] => .isFalse fun h => h
  | _ :: as, _ :: bs =>
    have : Decidable (SegsLE as bs) := SegsLE.dec as bs
    inferInstanceAs (Decidable (_ ∨ _))

/-- Prefix order on content values (same shape on both sides). -/
def ContentLE : JSContent → JSContent → Prop
  | .str a, .str b => a <+: b
  | .fmt a, .fmt b => SegsLE a b
  | _, _ => False

instance ContentLE.dec : (a b : JSContent) → Decidable (ContentLE a b)
  | .str _, .str _ => inferInstanceAs (Decidable (_ <+: _))
  | .fmt a, .fmt b => SegsLE.dec a b
  | .str _, .fmt _ => .isFalse fun h => h
  | .fmt _, .str _ => .isFalse fun h => h

/-- Strict prefix order on content values. -/
def ContentLT (a b : JSContent) : Prop := ContentLE a b ∧ a ≠ b

instance ContentLT.dec : DecidableRel ContentLT :=
  fun _ _ => inferInstanceAs (Decidable (_ ∧ _))

/-- The per-update `(displayedContent, isComplete)` pairs of the rendered line:
it is created with `displayedContent: ''` and `isComplete: false`, each tick
rewrites `displayedContent`, and the final update sets only `isComplete`. -/
def revealStates (c : JSContent) : List (JSContent × Bool) :=
  (JSContent.str [], false) :: (revealTicks c).map (fun t => (t, false)) ++
    [((revealTicks c).getLastD (JSContent.str []), true)]

/-- Well-formed UTF-16: every high surrogate is immediately followed by a low
surrogate and no surrogate appears unpaired (i.e. the unit sequence decodes to
whole Unicode code points). -/
def isWF16 : List Nat → Bool
  | [] => true
  | [u] => decide (u < 0xD800 ∨ 0xDFFF < u)
  | u :: v :: rest =>
    if u < 0xD800 ∨ 0xDFFF < u then isWF16 (v :: rest)
    else decide (u ≤ 0xDBFF) && decide (0xDC00 ≤ v ∧ v ≤ 0xDFFF) && isWF16 rest

/-! ## The session state machine (`Terminal.tsx`) -/

/-- The `type` field of a `TerminalLine`. -/
inductive LineType where
  | command | output | error | info | welcome
deriving DecidableEq, Repr

/-- `TerminalLine` from `Terminal.tsx` (the optional `command` field is never
written anywhere in the component and is omitted; `displayedContent` is always
set at creation). -/
structure TerminalLine where
  id : JSString
  type : LineType
  content : JSContent
  displayedContent : JSContent
  isComplete : Bool
deriving DecidableEq, Repr

/-- One `setLines` update of the reveal loop: replace the matching line's
`displayedContent`. -/
def applyDisplayed (lines : List TerminalLine) (lineId : JSString) (d : JSContent) :
    List TerminalLine :=
  lines.map fun l => if l.id = lineId then { l with displayedContent := d } else l

/-- The final `setLines` of `renderOutputLine`: mark the matching line complete. -/
def applyComplete (lines : List TerminalLine) (lineId : JSString) : List TerminalLine :=
  lines.map fun l => if l.id = lineId then { l with isComplete := true } else l

/-- The successive values of the `lines` state produced by `renderOutputLine`
(the character updates, then the completion update). -/
def renderLineStates (lines0 : List TerminalLine) (lineId : JSString) :
    List JSContent → List (List TerminalLine)
  | [] => [applyComplete lines0 lineId]
  | t :: ts =>
    let l1 := applyDisplayed lines0 lineId t
    l1 :: renderLineStates l1 lineId ts

/-- The two-line welcome banner (initial state, and the `CLEAR` replacement). -/
def welcomeLines : List TerminalLine :=
  [⟨ofStr "1", .welcome,
    .str (ofStr "Welcome to Terminal Portfolio, the friendly interactive shell"),
    .str (ofStr "Welcome to Terminal Portfolio, the friendly interactive shell"), true⟩,
   ⟨ofStr "2", .welcome,
    .str (ofStr "Type help for instructions on how to use this terminal"),
    .str (ofStr "Type help for instructions on how to use this terminal"), true⟩]

/-- The component state touched by `handleCommand`. -/
structure Session where
  lines : List TerminalLine
  input : JSString
  history : List JSString
  historyIndex : Int
  isProcessing : Bool
deriving DecidableEq, Repr

/-- `handleCommand` from `Terminal.tsx`, run to quiescence (the reveal loop
finished).  `now` models `Date.now()`.  The returned flag records whether
`window.location.reload()` was requested (the `RELOAD` sentinel).  The guard
`!command.trim() || isProcessing` makes the call a no-op. -/
def handleCommand (r : RandStream) (now : Nat) (command : JSString) (s : Session) :
    Session × Bool :=
  if trimJS command = [] ∨ s.isProcessing then (s, false)
  else
    let echoLine : TerminalLine := ⟨natStr now, .command, .str command, .str command, true⟩
    let s1 : Session :=
      { s with
        history := s.history ++ [command], historyIndex := -1,
        lines := s.lines ++ [echoLine], input := [], isProcessing := true }
    let result := getCommandOutputR r command
    if result.content = .str (ofStr "CLEAR") then
      ({ s1 with lines := welcomeLines, history := [], historyIndex := -1,
                 isProcessing := false }, false)
    else if result.content = .str (ofStr "RELOAD") then
      ({ s1 with isProcessing := false }, true)
    else
      let outputId := ofStr "output-" ++ natStr now
      let outputType := if result.error then LineType.error else LineType.output
      let pending : TerminalLine := ⟨outputId, outputType, result.content, .str [], false⟩
      let finalLine : TerminalLine :=
        { pending with
          displayedContent := (revealTicks result.content).getLastD (.str []),
          isComplete := true }
      ({ s1 with lines := s1.lines ++ [finalLine], isProcessing := false }, false)

/-! ## String-primitive lemmas -/

set_option maxRecDepth 100000

theorem lowerUnit_space (u : Nat) : lowerUnit u = 32 ↔ u = 32 := by
  unfold lowerUnit; split_ifs with h <;> omega

theorem ws_lowerUnit (u : Nat) : isJSWhitespace (lowerUnit u) = isJSWhitespace u := by
  unfold lowerUnit isJSWhitespace
  split_ifs with h
  · rw [decide_eq_decide]; constructor <;> intro h2 <;> omega
  · rfl

theorem splitSpaceGo_map_lower (s : List Nat) :
    ∀ acc : List Nat, splitSpace.go (s.map lowerUnit) (acc.map lowerUnit) =
      (splitSpace.go s acc).map (List.map lowerUnit) := by
  induction s with
  | nil => intro acc; simp [splitSpace.go, List.map_reverse]
  | cons u rest ih =>
    intro acc
    by_cases hu : u = 32
    · have hlu : lowerUnit u = 32 := (lowerUnit_space u).mpr hu
      simp only [List.map_cons, splitSpace.go, if_pos hu, if_pos hlu, List.map_cons]
      have h0 := ih []
      simp only [List.map_nil] at h0
      simp [h0, List.map_reverse]
    · have hlu : lowerUnit u ≠ 32 := fun h => hu ((lowerUnit_space u).mp h)
      simp only [List.map_cons, splitSpace.go, if_neg hu, if_neg hlu]
      have := ih (u :: acc)
      simpa using this

theorem splitSpace_toLower (s : JSString) :
    splitSpace (toLowerJS s) = (splitSpace s).map toLowerJS := by
  have := splitSpaceGo_map_lower s []
  simpa [splitSpace, toLowerJS] using this

theorem trimJS_toLower (s : JSString) : trimJS (toLowerJS s) = toLowerJS (trimJS s) := by
  have hws : (isJSWhitespace ∘ lowerUnit) = isJSWhitespace := funext ws_lowerUnit
  unfold trimJS toLowerJS
  rw [List.dropWhile_map, hws, ← List.map_reverse, List.dropWhile_map, hws, ← List.map_reverse]

theorem splitSpaceGo_ne_nil (s : List Nat) : ∀ acc, splitSpace.go s acc ≠ [] := by
  induction s with
  | nil => intro acc; simp [splitSpace.go]
  | cons u rest ih =>
    intro acc
    by_cases hu : u = 32 <;> simp [splitSpace.go, hu, ih]

theorem splitSpace_ne_nil (s : JSString) : splitSpace s ≠ [] :=
  splitSpaceGo_ne_nil s []

/-- C2 (counterexample).  The claim says the argument tokens reach the handler
exactly as typed, case preserved, after splitting on whitespace.  In fact the
whole input is lowercased before splitting, so `sudo RM` hands the handler
`["rm"]`, not `["RM"]` (observable in the `sudo: rm: command not found` echo),
and the split separator is the space character only, so a tab does not separate
the command token from its argument. -/
theorem args_not_preserved_cex :
    (parseInput (ofStr "sudo RM")).2 = [ofStr "rm"] ∧
    (parseInput (ofStr "sudo RM")).2 ≠ [ofStr "RM"] ∧
    (parseInput (ofStr "sudo\tRM")).1 = ofStr "sudo\trm" ∧
    ofStr "sudo: rm: command not found" <:+:
      contentUnits ((getCommandOutputR (fun _ => 0) (ofStr "sudo RM")).content) := by
  decide

/-- C2 (amended).  `getCommandOutput` normalizes by trimming, lowercasing the
whole trimmed input, and splitting on the space character: the command token is
the lowercased first token, and the argument tokens passed to the handler are
exactly the lowercased forms of the argument substrings as typed. -/
theorem parse_normalizes_tokens (input : JSString) :
    (parseInput input).1 = toLowerJS ((splitSpace (trimJS input)).headD []) ∧
    (parseInput input).2 = ((splitSpace (trimJS input)).tail).map toLowerJS := by
  obtain ⟨c, args, hsplit⟩ : ∃ c args, splitSpace (trimJS input) = c :: args := by
    cases h : splitSpace (trimJS input) with
    | nil => exact absurd h (splitSpace_ne_nil _)
    | cons c a => exact ⟨c, a, rfl⟩
  have hkey : splitSpace (toLowerJS (trimJS input)) = toLowerJS c :: args.map toLowerJS := by
    rw [splitSpace_toLower, hsplit, List.map_cons]
  simp [parseInput, hkey, hsplit]

/-! ## Dispatcher lemmas and claims -/

/-- C6.  For any registry (so in particular even if a `clear`/`reload` handler
were registered differently), any draw stream and any raw input whose
normalized command token is `clear` (resp. `reload`), `getCommandOutput`
returns the `CLEAR` (resp. `RELOAD`) sentinel result before any registry
lookup; the arguments are never inspected. -/
theorem sentinel_short_circuit (registry : List (JSString × Handler)) (r : RandStream)
    (input : JSString) :
    ((parseInput input).1 = ofStr "clear" →
      getCommandOutputWith registry r input =
        { content := .str (ofStr "CLEAR"), error := false }) ∧
    ((parseInput input).1 = ofStr "reload" →
      getCommandOutputWith registry r input =
        { content := .str (ofStr "RELOAD"), error := false }) := by
  constructor
  · intro h
    simp [getCommandOutputWith, h]
  · intro h
    simp [getCommandOutputWith, h, show ¬(ofStr "reload" = ofStr "clear") by decide]

/-- Witness for C6: `clear` submitted with arguments, against a registry whose
`clear` entry returns something entirely different, still yields the sentinel;
likewise `RELOAD` (typed uppercase) with an argument. -/
theorem sentinel_short_circuit_witness :
    getCommandOutputWith [(ofStr "clear", fun _ _ => .ok ⟨.fmt [], true⟩)] (fun _ => 0)
        (ofStr " clear  now") = { content := .str (ofStr "CLEAR"), error := false } ∧
    getCommandOutputWith [(ofStr "clear", fun _ _ => .ok ⟨.fmt [], true⟩)] (fun _ => 0)
        (ofStr "RELOAD x") = { content := .str (ofStr "RELOAD"), error := false } :=
  ⟨(sentinel_short_circuit [(ofStr "clear", fun _ _ => .ok ⟨.fmt [], true⟩)] (fun _ => 0)
      (ofStr " clear  now")).1 (by decide),
   (sentinel_short_circuit [(ofStr "clear", fun _ _ => .ok ⟨.fmt [], true⟩)] (fun _ => 0)
      (ofStr "RELOAD x")).2 (by decide)⟩

/-- C7.  `getCommandOutput` is a total function of its input (the embedding is
a Lean function, so no failure escapes), and when the matched handler raises an
internal failure the failure is caught at the dispatch boundary and converted
into a result with the error flag set whose content carries the failure's
message. -/
theorem dispatch_catches_handler_failure (registry : List (JSString × Handler))
    (r : RandStream) (input : JSString) (h : Handler) (msg : JSString)
    (h1 : (parseInput input).1 ≠ ofStr "clear")
    (h2 : (parseInput input).1 ≠ ofStr "reload")
    (hl : lookupJS registry (parseInput input).1 = some h)
    (hf : h r (parseInput input).2 = .error msg) :
    getCommandOutputWith registry r input =
      { content := .fmt
          [text.error (ofStr "Error executing command: ") false,
           text.error msg false,
           text.defaultC (ofStr "\n") false],
        error := true } ∧
    (getCommandOutputWith registry r input).error = true ∧
    msg <:+: contentUnits (getCommandOutputWith registry r input).content := by
  have hmain : getCommandOutputWith registry r input =
      { content := .fmt
          [text.error (ofStr "Error executing command: ") false,
           text.error msg false,
           text.defaultC (ofStr "\n") false],
        error := true } := by
    simp only [getCommandOutputWith, if_neg h1, if_neg h2, hl, hf]
  refine ⟨hmain, by rw [hmain], ?_⟩
  rw [hmain]
  exact ⟨ofStr "Error executing command: ", ofStr "\n",
    by simp [contentUnits, formatToString, text.error, text.defaultC]⟩

/-- The always-failing handler used to witness the dispatch boundary. -/
def failingHandler : Handler := fun _ _ => .error (ofStr "kaboom")

/-- Witness for C7: a registry with a handler that fails with message `kaboom`. -/
theorem dispatch_catches_handler_failure_witness :
    getCommandOutputWith [(ofStr "boom", failingHandler)] (fun _ => 0) (ofStr "boom") =
      { content := .fmt
          [text.error (ofStr "Error executing command: ") false,
           text.error (ofStr "kaboom") false,
           text.defaultC (ofStr "\n") false],
        error := true } ∧
    (getCommandOutputWith [(ofStr "boom", failingHandler)] (fun _ => 0) (ofStr "boom")).error
      = true ∧
    ofStr "kaboom" <:+:
      contentUnits
        ((getCommandOutputWith [(ofStr "boom", failingHandler)] (fun _ => 0)
            (ofStr "boom")).content) :=
  dispatch_catches_handler_failure [(ofStr "boom", failingHandler)] (fun _ => 0)
    (ofStr "boom") failingHandler (ofStr "kaboom") (by decide) (by decide) rfl rfl

/-- Unfolding equations for `lookupJS`. -/
theorem lookupJS_nil (cmd : JSString) : lookupJS [] cmd = none := rfl

theorem lookupJS_cons (k : JSString) (v : Handler) (rest : List (JSString × Handler))
    (cmd : JSString) :
    lookupJS ((k, v) :: rest) cmd = if cmd = k then some v else lookupJS rest cmd := rfl

/-- A successful lookup finds an association of the list. -/
theorem lookupJS_mem : ∀ (l : List (JSString × Handler)) (cmd : JSString) (h : Handler),
    lookupJS l cmd = some h → (cmd, h) ∈ l := by
  intro l
  induction l with
  | nil => intro cmd h hl; cases hl
  | cons p rest ih =>
    intro cmd h hl
    obtain ⟨k, v⟩ := p
    rw [lookupJS_cons] at hl
    by_cases hc : cmd = k
    · rw [if_pos hc] at hl
      cases hl
      subst hc
      exact List.mem_cons_self _ _
    · rw [if_neg hc] at hl
      exact List.mem_cons_of_mem _ (ih cmd h hl)

/-- Enumeration of the program registry: a successful lookup pins down both the
command token and the handler. -/
theorem lookup_cases (cmd : JSString) (h : Handler)
    (hl : lookupJS commandsList cmd = some h) :
    (cmd = ofStr "help" ∧ h = pureHandler helpOut) ∨
    (cmd = ofStr "about" ∧ h = pureHandler aboutOut) ∨
    (cmd = ofStr "email" ∧ h = pureHandler emailOut) ∨
    (cmd = ofStr "social" ∧ h = pureHandler socialOut) ∨
    (cmd = ofStr "projects" ∧ h = pureHandler projectsOut) ∨
    (cmd = ofStr "stack" ∧ h = pureHandler stackOut) ∨
    (cmd = ofStr "blog" ∧ h = pureHandler blogOut) ∨
    (cmd = ofStr "videos" ∧ h = pureHandler videosOut) ∨
    (cmd = ofStr "podcasts" ∧ h = pureHandler podcastsOut) ∨
    (cmd = ofStr "resume" ∧ h = pureHandler resumeOut) ∨
    (cmd = ofStr "history" ∧ h = pureHandler historyOut) ∨
    (cmd = ofStr "sudo" ∧ h = fun r args => .ok (sudoOutput r args)) ∨
    (cmd = ofStr "clear" ∧ h = fun _ _ => .ok { content := .str (ofStr "CLEAR"), error := false }) ∨
    (cmd = ofStr "reload" ∧
      h = fun _ _ => .ok { content := .str (ofStr "RELOAD"), error := false }) := by
  have hm := lookupJS_mem commandsList cmd h hl
  cases hm with
  | head => exact Or.inl ⟨rfl, rfl⟩
  | tail _ hm =>
  cases hm with
  | head => exact Or.inr (Or.inl ⟨rfl, rfl⟩)
  | tail _ hm =>
  cases hm with
  | head => exact Or.inr (Or.inr (Or.inl ⟨rfl, rfl⟩))
  | tail _ hm =>
  cases hm with
  | head => exact Or.inr (Or.inr (Or.inr (Or.inl ⟨rfl, rfl⟩)))
  | tail _ hm =>
  cases hm with
  | head => exact Or.inr (Or.inr (Or.inr (Or.inr (Or.inl ⟨rfl, rfl⟩))))
  | tail _ hm =>
  cases hm with
  | head => exact Or.inr (Or.inr (Or.inr (Or.inr (Or.inr (Or.inl ⟨rfl, rfl⟩)))))
  | tail _ hm =>
  cases hm with
  | head => exact Or.inr (Or.inr (Or.inr (Or.inr (Or.inr (Or.inr (Or.inl ⟨rfl, rfl⟩))))))
  | tail _ hm =>
  cases hm with
  | head =>
    exact Or.inr (Or.inr (Or.inr (Or.inr (Or.inr (Or.inr (Or.inr (Or.inl ⟨rfl, rfl⟩)))))))
  | tail _ hm =>
  cases hm with
  | head =>
    exact Or.inr (Or.inr (Or.inr (Or.inr (Or.inr (Or.inr (Or.inr (Or.inr
      (Or.inl ⟨rfl, rfl⟩))))))))
  | tail _ hm =>
  cases hm with
  | head =>
    exact Or.inr (Or.inr (Or.inr (Or.inr (Or.inr (Or.inr (Or.inr (Or.inr (Or.inr
      (Or.inl ⟨rfl, rfl⟩)))))))))
  | tail _ hm =>
  cases hm with
  | head =>
    exact Or.inr (Or.inr (Or.inr (Or.inr (Or.inr (Or.inr (Or.inr (Or.inr (Or.inr (Or.inr
      (Or.inl ⟨rfl, rfl⟩))))))))))
  | tail _ hm =>
  cases hm with
  | head =>
    exact Or.inr (Or.inr (Or.inr (Or.inr (Or.inr (Or.inr (Or.inr (Or.inr (Or.inr (Or.inr
      (Or.inr (Or.inl ⟨rfl, rfl⟩)))))))))))
  | tail _ hm =>
  cases hm with
  | head =>
    exact Or.inr (Or.inr (Or.inr (Or.inr (Or.inr (Or.inr (Or.inr (Or.inr (Or.inr (Or.inr
      (Or.inr (Or.inr (Or.inl ⟨rfl, rfl⟩))))))))))))
  | tail _ hm =>
  cases hm with
  | head =>
    exact Or.inr (Or.inr (Or.inr (Or.inr (Or.inr (Or.inr (Or.inr (Or.inr (Or.inr (Or.inr
      (Or.inr (Or.inr (Or.inr ⟨rfl, rfl⟩))))))))))))
  | tail _ hm => cases hm

/-- C4 (counterexample).  Resolving `sudo` twice with the same (empty) argument
list but distinct pseudorandom draw streams — as two successive calls within
one session have, since `Math.random` advances — yields different content, so
resolution is not determined by command name and arguments alone. -/
theorem sudo_nondeterministic_cex :
    getCommandOutputR (fun _ => 0) (ofStr "sudo") ≠
      getCommandOutputR (fun _ => 1) (ofStr "sudo") := by
  decide

/-- C4 (amended).  For every input whose normalized command token is not
`sudo`, resolution does not depend on the pseudorandom draw stream; resolving
the same command with the same arguments twice therefore yields content of
identical shape and text (the content data of all other handlers is static). -/
theorem resolve_deterministic_except_sudo (r1 r2 : RandStream) (input : JSString)
    (h : (parseInput input).1 ≠ ofStr "sudo") :
    getCommandOutputR r1 input = getCommandOutputR r2 input := by
  unfold getCommandOutputR getCommandOutputWith
  by_cases h1 : (parseInput input).1 = ofStr "clear"
  · simp [h1]
  by_cases h2 : (parseInput input).1 = ofStr "reload"
  · simp [h1, h2]
  simp only [if_neg h1, if_neg h2]
  cases hlk : lookupJS commandsList (parseInput input).1 with
  | none => rfl
  | some hd =>
    rcases lookup_cases _ _ hlk with ⟨hc, rfl⟩ | ⟨hc, rfl⟩ | ⟨hc, rfl⟩ | ⟨hc, rfl⟩ |
      ⟨hc, rfl⟩ | ⟨hc, rfl⟩ | ⟨hc, rfl⟩ | ⟨hc, rfl⟩ | ⟨hc, rfl⟩ | ⟨hc, rfl⟩ | ⟨hc, rfl⟩ |
      ⟨hc, rfl⟩ | ⟨hc, rfl⟩ | ⟨hc, rfl⟩ <;>
      first
        | rfl
        | exact absurd hc h

/-- Witness for C4's amended theorem at the `about` command. -/
theorem resolve_deterministic_except_sudo_witness :
    getCommandOutputR (fun _ => 0) (ofStr "about") =
      getCommandOutputR (fun _ => 1) (ofStr "about") :=
  resolve_deterministic_except_sudo (fun _ => 0) (fun _ => 1) (ofStr "about") (by decide)

/-- C9.  A `submit` while `busy` (`isProcessing`), or of input that is blank
after trimming, is a no-op: the state is returned unchanged, so no command-echo
line is created (transcript length unchanged) and nothing is appended to the
history buffer. -/
theorem submit_noop_when_busy_or_blank (r : RandStream) (now : Nat) (cmd : JSString)
    (s : Session) (h : s.isProcessing = true ∨ trimJS cmd = []) :
    handleCommand r now cmd s = (s, false) ∧
    (handleCommand r now cmd s).1.lines.length = s.lines.length ∧
    (handleCommand r now cmd s).1.history = s.history := by
  have hcond : trimJS cmd = [] ∨ s.isProcessing = true := h.elim Or.inr Or.inl
  have hmain : handleCommand r now cmd s = (s, false) := by
    unfold handleCommand
    rw [if_pos hcond]
  exact ⟨hmain, by rw [hmain], by rw [hmain]⟩

/-- Witness for C9: a busy session, and a blank submission on an idle session. -/
theorem submit_noop_when_busy_or_blank_witness :
    handleCommand (fun _ => 0) 7 (ofStr "help")
        ⟨welcomeLines, [], [ofStr "a"], -1, true⟩ =
      (⟨welcomeLines, [], [ofStr "a"], -1, true⟩, false) ∧
    handleCommand (fun _ => 0) 7 (ofStr "   ") ⟨welcomeLines, [], [], -1, false⟩ =
      (⟨welcomeLines, [], [], -1, false⟩, false) :=
  ⟨(submit_noop_when_busy_or_blank (fun _ => 0) 7 (ofStr "help")
      ⟨welcomeLines, [], [ofStr "a"], -1, true⟩ (Or.inl rfl)).1,
   (submit_noop_when_busy_or_blank (fun _ => 0) 7 (ofStr "   ")
      ⟨welcomeLines, [], [], -1, false⟩ (Or.inr (by decide))).1⟩

/-- A token produced by the dispatcher's normalization never contains an
uppercase ASCII code unit (the whole input is lowercased before splitting). -/
theorem parseInput_no_upper (input : JSString) :
    ∀ u ∈ (parseInput input).1, ¬ (65 ≤ u ∧ u ≤ 90) := by
  intro u hu
  obtain ⟨c, args, hsplit⟩ : ∃ c args, splitSpace (trimJS input) = c :: args := by
    cases h : splitSpace (trimJS input) with
    | nil => exact absurd h (splitSpace_ne_nil _)
    | cons c a => exact ⟨c, a, rfl⟩
  have hkey : splitSpace (toLowerJS (trimJS input)) = toLowerJS c :: args.map toLowerJS := by
    rw [splitSpace_toLower, hsplit, List.map_cons]
  have hp : parseInput input = (toLowerJS c, args.map toLowerJS) := by
    unfold parseInput
    rw [hkey]
  rw [hp] at hu
  have hu' : u ∈ toLowerJS c := hu
  unfold toLowerJS at hu'
  rw [List.mem_map] at hu'
  obtain ⟨v, _, rfl⟩ := hu'
  unfold lowerUnit
  split_ifs with h2 <;> omega

/-- Among `Object.prototype`'s own property names, only `constructor` and
`__proto__` are free of uppercase ASCII, so they are the only inherited
properties a normalized command token can hit through the JS `in` operator —
the two branches `getCommandOutputJS` models explicitly are exhaustive. -/
theorem proto_reachable_only_two (input : JSString)
    (h : (parseInput input).1 ∈ protoOwnNames) :
    (parseInput input).1 = ofStr "constructor" ∨ (parseInput input).1 = ofStr "__proto__" := by
  have hup := parseInput_no_upper input
  simp only [protoOwnNames, List.mem_cons, List.not_mem_nil, or_false] at h
  rcases h with h | h | h | h | h | h | h | h | h | h | h | h
  · exact Or.inl h
  · exact absurd (by decide) (hup 79 (by rw [h]; decide))
  · exact absurd (by decide) (hup 80 (by rw [h]; decide))
  · exact absurd (by decide) (hup 73 (by rw [h]; decide))
  · exact absurd (by decide) (hup 76 (by rw [h]; decide))
  · exact absurd (by decide) (hup 83 (by rw [h]; decide))
  · exact absurd (by decide) (hup 79 (by rw [h]; decide))
  · exact absurd (by decide) (hup 71 (by rw [h]; decide))
  · exact absurd (by decide) (hup 83 (by rw [h]; decide))
  · exact absurd (by decide) (hup 71 (by rw [h]; decide))
  · exact absurd (by decide) (hup 83 (by rw [h]; decide))
  · exact Or.inr h

/-- Away from the two reachable inherited `Object.prototype` names, the full
dispatch agrees with the own-keys-only dispatch: the prototype chain is
invisible for every other token (registered or not). -/
theorem dispatchJS_agrees (registry : List (JSString × Handler)) (r : RandStream)
    (input : JSString)
    (h1 : (parseInput input).1 ≠ ofStr "constructor")
    (h2 : (parseInput input).1 ≠ ofStr "__proto__") :
    getCommandOutputJS registry r input = .out (getCommandOutputWith registry r input) := by
  unfold getCommandOutputJS getCommandOutputWith
  by_cases hc : (parseInput input).1 = ofStr "clear"
  · simp [hc]
  by_cases hr : (parseInput input).1 = ofStr "reload"
  · simp [hc, hr, show ¬(ofStr "reload" = ofStr "clear") by decide]
  simp only [if_neg hc, if_neg hr]
  cases hlk : lookupJS registry (parseInput input).1 with
  | none => simp only [if_neg h1, if_neg h2]
  | some hd =>
    dsimp only
    cases hf : hd r (parseInput input).2 <;> rfl

/-- C8 (counterexample).  The claim says every non-empty unmatched non-sentinel
input yields `isError = true` echoing the token verbatim (exactly as typed)
plus a `help` suggestion.  Two refutations: the unmatched input `FooBar`
yields an error whose text contains the lowercased `foobar`, never the typed
`FooBar`; and the unmatched non-sentinel input `constructor` hits the
inherited `Object` constructor through the JS `in` operator, so resolution
returns the bare argument array — no error flag, no echoed token, no `help`
suggestion at all. -/
theorem unknown_token_lowercased_cex :
    (getCommandOutputR (fun _ => 0) (ofStr "FooBar")).error = true ∧
    ¬ (ofStr "FooBar" <:+:
        contentUnits ((getCommandOutputR (fun _ => 0) (ofStr "FooBar")).content)) ∧
    ofStr "foobar" <:+:
      contentUnits ((getCommandOutputR (fun _ => 0) (ofStr "FooBar")).content) ∧
    getCommandOutputJS commandsList (fun _ => 0) (ofStr "FooBar") =
      .out (getCommandOutputR (fun _ => 0) (ofStr "FooBar")) ∧
    lookupJS commandsList (parseInput (ofStr "constructor")).1 = none ∧
    getCommandOutputJS commandsList (fun _ => 0) (ofStr "constructor") = .rawArgs [] := by
  refine ⟨by decide, by decide, by decide, by decide, rfl, by decide⟩

/-- C8 (amended).  For every non-empty input whose normalized (trimmed,
lowercased) command token matches no registered command, is not `clear` or
`reload`, and is none of `Object.prototype`'s property names (after
lowercasing only `constructor` and `__proto__` are reachable, by
`proto_reachable_only_two`), the full dispatch returns `isError = true` with
content echoing the normalized token — not the token as typed — and
suggesting the `help` command. -/
theorem unknown_command_error_result (r : RandStream) (input : JSString)
    (_h0 : input ≠ [])
    (h1 : (parseInput input).1 ≠ ofStr "clear")
    (h2 : (parseInput input).1 ≠ ofStr "reload")
    (hp : (parseInput input).1 ∉ protoOwnNames)
    (hl : lookupJS commandsList (parseInput input).1 = none) :
    getCommandOutputJS commandsList r input = .out (getCommandOutputR r input) ∧
    getCommandOutputR r input =
      { content := .fmt
          [text.error (ofStr "Command not found: " ++ (parseInput input).1 ++ ofStr ". ") false,
           text.defaultC (ofStr "Type ") false,
           text.primary (ofStr "help") true,
           text.defaultC (ofStr " for available commands.\n") false],
        error := true } ∧
    (parseInput input).1 <:+: contentUnits ((getCommandOutputR r input).content) ∧
    ofStr "help" <:+: contentUnits ((getCommandOutputR r input).content) := by
  have hectr : (parseInput input).1 ≠ ofStr "constructor" := fun he =>
    hp (he ▸ (by decide : ofStr "constructor" ∈ protoOwnNames))
  have hepr : (parseInput input).1 ≠ ofStr "__proto__" := fun he =>
    hp (he ▸ (by decide : ofStr "__proto__" ∈ protoOwnNames))
  have hmain : getCommandOutputR r input =
      { content := .fmt
          [text.error (ofStr "Command not found: " ++ (parseInput input).1 ++ ofStr ". ") false,
           text.defaultC (ofStr "Type ") false,
           text.primary (ofStr "help") true,
           text.defaultC (ofStr " for available commands.\n") false],
        error := true } := by
    simp only [getCommandOutputR, getCommandOutputWith, if_neg h1, if_neg h2, hl]
  refine ⟨dispatchJS_agrees commandsList r input hectr hepr, hmain, ?_, ?_⟩
  · rw [hmain]
    refine ⟨ofStr "Command not found: ",
      ofStr ". " ++ (ofStr "Type " ++ (ofStr "help" ++ ofStr " for available commands.\n")), ?_⟩
    simp [contentUnits, formatToString, text.error, text.defaultC, text.primary]
  · rw [hmain]
    refine ⟨ofStr "Command not found: " ++ (parseInput input).1 ++ ofStr ". " ++ ofStr "Type ",
      ofStr " for available commands.\n", ?_⟩
    simp [contentUnits, formatToString, text.error, text.defaultC, text.primary]

/-- Witness for C8's amended theorem at the unmatched token `foobar` (typed
`FooBar`), which is not an `Object.prototype` name. -/
theorem unknown_command_error_result_witness :
    getCommandOutputJS commandsList (fun _ => 0) (ofStr "FooBar") =
      .out (getCommandOutputR (fun _ => 0) (ofStr "FooBar")) ∧
    getCommandOutputR (fun _ => 0) (ofStr "FooBar") =
      { content := .fmt
          [text.error (ofStr "Command not found: " ++
              (parseInput (ofStr "FooBar")).1 ++ ofStr ". ") false,
           text.defaultC (ofStr "Type ") false,
           text.primary (ofStr "help") true,
           text.defaultC (ofStr " for available commands.\n") false],
        error := true } ∧
    (parseInput (ofStr "FooBar")).1 <:+:
      contentUnits ((getCommandOutputR (fun _ => 0) (ofStr "FooBar")).content) ∧
    ofStr "help" <:+:
      contentUnits ((getCommandOutputR (fun _ => 0) (ofStr "FooBar")).content) :=
  unknown_command_error_result (fun _ => 0) (ofStr "FooBar") (by decide) (by decide)
    (by decide) (by decide) rfl

/-- C10.  The registered `sudo` handler returns `error = false` for every draw
stream and every argument list — including the non-update branch, whose content
nevertheless carries a `command not found` message — so its output is always
rendered as an output-kind line, never as an error-kind line. -/
theorem sudo_never_error_flag (r : RandStream) (args : List JSString) :
    (sudoOutput r args).error = false ∧
    (sudoIsUpdate args = false →
      ofStr "command not found" <:+: contentUnits ((sudoOutput r args).content)) := by
  constructor
  · unfold sudoOutput
    split <;> rfl
  · intro hupd
    have hneg : ¬ (sudoIsUpdate args = true) := by simp [hupd]
    unfold sudoOutput
    rw [if_neg hneg]
    have hsplit : ofStr ": command not found\n" =
        ofStr ": " ++ (ofStr "command not found" ++ ofStr "\n") := by decide
    refine ⟨ofStr "[sudo] " ++ (ofStr "password for user: " ++
        (ofStr "***************\n\n" ++ (ofStr "sudo: " ++ args.headD [] ++ ofStr ": "))),
      ofStr "\n", ?_⟩
    simp [contentUnits, formatToString, text.primary, text.defaultC, text.muted, text.error,
      hsplit, List.append_assoc]

/-- Witness for C10 at the non-update invocation `sudo rm`. -/
theorem sudo_never_error_flag_witness :
    (sudoOutput (fun _ => 0) [ofStr "rm"]).error = false ∧
    ofStr "command not found" <:+:
      contentUnits ((sudoOutput (fun _ => 0) [ofStr "rm"]).content) :=
  ⟨(sudo_never_error_flag (fun _ => 0) [ofStr "rm"]).1,
   (sudo_never_error_flag (fun _ => 0) [ofStr "rm"]).2 (by decide)⟩

/-! ## Renderer lemmas -/

theorem fmtTicks_nil (done : List TextSegment) : fmtTicks done [] = [] := rfl

theorem fmtTicks_cons (done : List TextSegment) (s : TextSegment) (ss : List TextSegment) :
    fmtTicks done (s :: ss) =
      (List.range s.text.length).map
          (fun i => done ++ [{ s with text := s.text.take (i + 1) }]) ++
        fmtTicks (done ++ [s]) ss := rfl

theorem revealTicks_str (s : JSString) :
    revealTicks (.str s) = (List.range s.length).map (fun i => .str (s.take (i + 1))) := rfl

theorem revealTicks_fmt (l : List TextSegment) :
    revealTicks (.fmt l) = (fmtTicks [] l).map .fmt := rfl

/-- A revealed segment list is a prefix of any extension of itself. -/
theorem segsLE_append (d e : List TextSegment) : SegsLE d (d ++ e) := by
  induction d with
  | nil => trivial
  | cons a as ih => exact Or.inl ⟨rfl, ih⟩

/-- Growing only the text of the final segment (style fields unchanged)
preserves the prefix order. -/
theorem segsLE_snoc (d : List TextSegment) {a b : TextSegment}
    (hc : a.color = b.color) (hb : a.bold = b.bold) (hu : a.url = b.url)
    (ht : a.text <+: b.text) : SegsLE (d ++ [a]) (d ++ [b]) := by
  induction d with
  | nil => exact Or.inr ⟨rfl, hc, hb, hu, ht⟩
  | cons x xs ih => exact Or.inl ⟨rfl, ih⟩

theorem snoc_ne_of_text_ne (d : List TextSegment) {a b : TextSegment}
    (h : a.text ≠ b.text) : d ++ [a] ≠ d ++ [b] := by
  intro he
  have h2 := List.append_cancel_left he
  simp only [List.cons.injEq, and_true] at h2
  exact h (congrArg TextSegment.text h2)

/-- The first update of a reveal starting from `done` strictly extends `done`. -/
theorem fmtTicks_head_shape :
    ∀ (rest done : List TextSegment) {t : List TextSegment},
      (fmtTicks done rest).head? = some t → ∃ suf, suf ≠ [] ∧ t = done ++ suf := by
  intro rest
  induction rest with
  | nil => intro done t h; simp [fmtTicks_nil] at h
  | cons s ss ih =>
    intro done t h
    rw [fmtTicks_cons] at h
    cases hn : s.text.length with
    | zero =>
      rw [hn] at h
      simp only [List.range_zero, List.map_nil, List.nil_append] at h
      obtain ⟨suf, hs, rfl⟩ := ih (done ++ [s]) h
      exact ⟨s :: suf, by simp, by simp⟩
    | succ n =>
      rw [hn, List.range_succ_eq_map] at h
      simp only [List.map_cons, List.cons_append, List.head?_cons, Option.some.injEq] at h
      exact ⟨[{ s with text := s.text.take 1 }], by simp, h.symm⟩

/-- The block of updates for one segment forms a strict prefix chain. -/
theorem fmtTicks_block_chain (done : List TextSegment) (s : TextSegment) :
    List.Chain' (fun x y => SegsLE x y ∧ x ≠ y)
      ((List.range s.text.length).map
        (fun i => done ++ [{ s with text := s.text.take (i + 1) }])) := by
  rw [List.chain'_map]
  cases hn : s.text.length with
  | zero => simp
  | succ n =>
    rw [List.chain'_range_succ]
    intro m hm
    constructor
    · exact segsLE_snoc done rfl rfl rfl (List.take_prefix_take_left _ (by omega))
    · apply snoc_ne_of_text_ne
      intro hteq
      have hlen := congrArg List.length hteq
      rw [List.length_take, List.length_take, hn] at hlen
      omega

theorem seg_text_take_all (s : TextSegment) {n : Nat} (hn : s.text.length = n + 1) :
    { s with text := s.text.take (n + 1) } = s := by
  rw [List.take_of_length_le (by omega)]

/-- Last element of a segment's update block: the segment fully revealed. -/
theorem fmtTicks_block_getLast (done : List TextSegment) (s : TextSegment) {n : Nat}
    (hn : s.text.length = n + 1) :
    ((List.range s.text.length).map
        (fun i => done ++ [{ s with text := s.text.take (i + 1) }])).getLast? =
      some (done ++ [s]) := by
  rw [hn, List.range_succ, List.map_append, List.map_singleton, List.getLast?_concat,
    seg_text_take_all s hn]

theorem fmtTicks_ne_nil (rest done : List TextSegment) (hne : rest ≠ [])
    (hall : ∀ t ∈ rest, t.text ≠ []) : fmtTicks done rest ≠ [] := by
  cases rest with
  | nil => exact absurd rfl hne
  | cons s ss =>
    rw [fmtTicks_cons]
    intro h
    rcases List.append_eq_nil.mp h with ⟨h1, _⟩
    have hs : s.text ≠ [] := hall s (List.mem_cons_self s ss)
    rw [List.map_eq_nil_iff, List.range_eq_nil, List.length_eq_zero] at h1
    exact hs h1

/-- The full update sequence of the segment branch is a strict prefix chain. -/
theorem fmtTicks_chain :
    ∀ (rest done : List TextSegment),
      List.Chain' (fun x y => SegsLE x y ∧ x ≠ y) (fmtTicks done rest) := by
  intro rest
  induction rest with
  | nil => intro done; rw [fmtTicks_nil]; exact List.chain'_nil
  | cons s ss ih =>
    intro done
    rw [fmtTicks_cons]
    refine List.chain'_append.mpr ⟨fmtTicks_block_chain done s, ih _, ?_⟩
    intro x hx y hy
    cases hn : s.text.length with
    | zero => rw [hn] at hx; simp at hx
    | succ n =>
      rw [fmtTicks_block_getLast done s hn] at hx
      have hx' : x = done ++ [s] := by
        have := hx
        simp only [Option.mem_def, Option.some.injEq] at this
        exact this.symm
      subst hx'
      have hhead : (fmtTicks (done ++ [s]) ss).head? = some y := by
        cases hh : (fmtTicks (done ++ [s]) ss).head? with
        | none => rw [hh] at hy; cases hy
        | some z => rw [hh] at hy; simp at hy; rw [hy]
      obtain ⟨suf, hsuf, rfl⟩ := fmtTicks_head_shape ss (done ++ [s]) hhead
      constructor
      · exact segsLE_append _ _
      · intro he
        have hlen := congrArg List.length he
        simp only [List.length_append] at hlen
        exact hsuf (List.length_eq_zero.mp (by omega))

/-- When every segment is nonempty, the last update reveals the full content. -/
theorem fmtTicks_getLast? :
    ∀ (rest done : List TextSegment), rest ≠ [] → (∀ t ∈ rest, t.text ≠ []) →
      (fmtTicks done rest).getLast? = some (done ++ rest) := by
  intro rest
  induction rest with
  | nil => intro done h; exact absurd rfl h
  | cons s ss ih =>
    intro done _ hall
    rw [fmtTicks_cons]
    cases hss : ss with
    | nil =>
      subst hss
      rw [fmtTicks_nil, List.append_nil]
      have hne : s.text ≠ [] := hall s (by simp)
      obtain ⟨n, hn⟩ : ∃ n, s.text.length = n + 1 := by
        cases h : s.text.length with
        | zero => exact absurd (List.length_eq_zero.mp h) hne
        | succ n => exact ⟨n, rfl⟩
      exact fmtTicks_block_getLast done s hn
    | cons t ts =>
      subst hss
      have hrec : fmtTicks (done ++ [s]) (t :: ts) ≠ [] :=
        fmtTicks_ne_nil _ _ (by simp) (fun u hu => hall u (List.mem_cons_of_mem _ hu))
      rw [List.getLast?_append_of_ne_nil _ hrec,
        ih (done ++ [s]) (by simp) (fun u hu => hall u (List.mem_cons_of_mem _ hu))]
      simp

/-- The string-branch tick sequence is a strict prefix chain. -/
theorem revealTicks_str_chain (s : JSString) :
    List.Chain' ContentLT (revealTicks (.str s)) := by
  rw [revealTicks_str, List.chain'_map]
  cases hn : s.length with
  | zero => simp
  | succ n =>
    rw [List.chain'_range_succ]
    intro m hm
    refine ⟨List.take_prefix_take_left _ (by omega), ?_⟩
    intro he
    have ht : s.take (m + 1) = s.take (m + 2) := by injection he
    have hlen := congrArg List.length ht
    rw [List.length_take, List.length_take, hn] at hlen
    omega

/-- The segment-branch tick sequence is a strict prefix chain. -/
theorem revealTicks_fmt_chain (l : List TextSegment) :
    List.Chain' ContentLT (revealTicks (.fmt l)) := by
  rw [revealTicks_fmt, List.chain'_map]
  refine List.Chain'.imp ?_ (fmtTicks_chain l [])
  intro a b ⟨h1, h2⟩
  exact ⟨h1, fun he => h2 (by injection he)⟩

theorem revealTicks_str_getLastD (s : JSString) (d : JSContent) (h : s ≠ []) :
    (revealTicks (.str s)).getLastD d = .str s := by
  obtain ⟨n, hn⟩ : ∃ n, s.length = n + 1 := by
    cases hl : s.length with
    | zero => exact absurd (List.length_eq_zero.mp hl) h
    | succ n => exact ⟨n, rfl⟩
  rw [revealTicks_str, hn, List.range_succ, List.map_append, List.map_singleton,
    List.getLastD_concat, List.take_of_length_le (by omega)]

theorem revealTicks_fmt_getLastD (l : List TextSegment) (d : JSContent) (hne : l ≠ [])
    (hall : ∀ t ∈ l, t.text ≠ []) : (revealTicks (.fmt l)).getLastD d = .fmt l := by
  rw [revealTicks_fmt, List.getLastD_eq_getLast?, List.getLast?_map,
    fmtTicks_getLast? l [] hne hall]
  rfl

/-- The line's `complete` flag is `false` at creation and through every content
tick, and flips to `true` exactly at the final update. -/
theorem revealStates_flags (c : JSContent) :
    (revealStates c).map Prod.snd =
      List.replicate ((revealTicks c).length + 1) false ++ [true] := by
  simp only [revealStates, List.map_cons, List.map_append, List.map_map,
    List.map_singleton, List.replicate_succ, List.cons_append, List.cons.injEq, true_and]
  rw [show (Prod.snd ∘ fun t : JSContent => (t, false)) = fun _ => false from rfl,
    List.map_const' _ false]
  rfl

/-! ## Every dispatched content has nonempty segment texts -/

theorem natStrAux_succ (fuel n : Nat) :
    natStrAux (fuel + 1) n =
      if n < 10 then [48 + n] else natStrAux fuel (n / 10) ++ [48 + n % 10] := rfl

theorem natStr_ne_nil (n : Nat) : natStr n ≠ [] := by
  rw [natStr, natStrAux_succ]
  split
  · simp
  · exact List.append_ne_nil_of_right_ne_nil _ (by simp)

theorem versionStr_ne_nil (a b c : Nat) : versionStr a b c ≠ [] := by
  unfold versionStr
  exact List.append_ne_nil_of_left_ne_nil
    (List.append_ne_nil_of_left_ne_nil
      (List.append_ne_nil_of_left_ne_nil
        (List.append_ne_nil_of_left_ne_nil (natStr_ne_nil _) _) _) _) _

theorem sudoRow_allNE (r : RandStream) (i : Nat) :
    ∀ t ∈ sudoRow r i, t.text ≠ [] := by
  intro t ht
  unfold sudoRow at ht
  simp only [List.mem_cons, List.not_mem_nil, or_false] at ht
  rcases ht with rfl | rfl | rfl | rfl | rfl | rfl
  · exact List.append_ne_nil_of_left_ne_nil
      (List.append_ne_nil_of_left_ne_nil (by decide) _) _
  · decide
  · exact List.append_ne_nil_of_right_ne_nil _ (by decide)
  · exact List.append_ne_nil_of_right_ne_nil _ (by decide)
  · exact versionStr_ne_nil _ _ _
  · exact List.append_ne_nil_of_left_ne_nil
      (List.append_ne_nil_of_left_ne_nil (by decide) _) _

theorem sudoUpdateLines_allNE (r : RandStream) :
    ∀ t ∈ sudoUpdateLines r, t.text ≠ [] := by
  intro t ht
  unfold sudoUpdateLines at ht
  simp only [List.mem_append] at ht
  rcases ht with ((((ht | ht) | ht) | ht) | ht) | ht
  · rw [List.mem_flatten] at ht
    obtain ⟨row, hrow, htl⟩ := ht
    rw [List.mem_map] at hrow
    obtain ⟨i, _, rfl⟩ := hrow
    exact sudoRow_allNE r i t htl
  · simp only [List.mem_cons, List.not_mem_nil, or_false] at ht
    rcases ht with rfl | rfl | rfl | rfl | rfl | rfl | rfl <;>
      first
        | decide
        | exact List.append_ne_nil_of_left_ne_nil (natStr_ne_nil _) _
  · simp only [List.mem_cons, List.not_mem_nil, or_false] at ht
    rcases ht with rfl | rfl <;> decide
  · simp only [List.mem_cons, List.not_mem_nil, or_false] at ht
    rcases ht with rfl | rfl <;> decide
  · simp only [List.mem_cons, List.not_mem_nil, or_false] at ht
    rcases ht with rfl | rfl <;> decide
  · simp only [List.mem_cons, List.not_mem_nil, or_false] at ht
    subst ht
    decide

theorem sudoOutput_shape (r : RandStream) (args : List JSString) :
    ∃ l, (sudoOutput r args).content = .fmt l ∧ l ≠ [] ∧ ∀ t ∈ l, t.text ≠ [] := by
  unfold sudoOutput
  split
  · refine ⟨_, rfl, by simp [combine], ?_⟩
    intro t ht
    simp only [combine, List.flatten_cons, List.flatten_nil, List.append_nil,
      List.mem_append] at ht
    rcases ht with ht | ht | ht | ht | ht | ht
    · simp only [List.mem_cons, List.not_mem_nil, or_false] at ht
      rcases ht with rfl | rfl <;> decide
    · simp only [List.mem_cons, List.not_mem_nil, or_false] at ht
      subst ht
      decide
    · simp only [List.mem_cons, List.not_mem_nil, or_false] at ht
      subst ht
      decide
    · simp only [List.mem_cons, List.not_mem_nil, or_false] at ht
      subst ht
      decide
    · simp only [List.mem_cons, List.not_mem_nil, or_false] at ht
      subst ht
      decide
    · exact sudoUpdateLines_allNE r t ht
  · refine ⟨_, rfl, by simp, ?_⟩
    intro t ht
    simp only [List.mem_cons, List.not_mem_nil, or_false] at ht
    rcases ht with rfl | rfl | rfl | rfl
    · decide
    · decide
    · decide
    · exact List.append_ne_nil_of_left_ne_nil
        (List.append_ne_nil_of_left_ne_nil (by decide) _) _

/-- Shape of every dispatch result: a sentinel string, or a nonempty segment
list all of whose segment texts are nonempty. -/
theorem dispatch_content_shape (r : RandStream) (input : JSString) :
    (getCommandOutputR r input).content = .str (ofStr "CLEAR") ∨
    (getCommandOutputR r input).content = .str (ofStr "RELOAD") ∨
    ∃ l, (getCommandOutputR r input).content = .fmt l ∧ l ≠ [] ∧ ∀ t ∈ l, t.text ≠ [] := by
  unfold getCommandOutputR getCommandOutputWith
  by_cases h1 : (parseInput input).1 = ofStr "clear"
  · simp [h1]
  by_cases h2 : (parseInput input).1 = ofStr "reload"
  · simp [h1, h2, show ¬(ofStr "reload" = ofStr "clear") by decide]
  simp only [if_neg h1, if_neg h2]
  cases hlk : lookupJS commandsList (parseInput input).1 with
  | none =>
    right; right
    refine ⟨_, rfl, by simp, ?_⟩
    intro t ht
    simp only [List.mem_cons, List.not_mem_nil, or_false] at ht
    rcases ht with rfl | rfl | rfl | rfl
    · exact List.append_ne_nil_of_left_ne_nil
        (List.append_ne_nil_of_left_ne_nil (by decide) _) _
    · decide
    · decide
    · decide
  | some hd =>
    rcases lookup_cases _ _ hlk with ⟨hc, rfl⟩ | ⟨hc, rfl⟩ | ⟨hc, rfl⟩ | ⟨hc, rfl⟩ |
      ⟨hc, rfl⟩ | ⟨hc, rfl⟩ | ⟨hc, rfl⟩ | ⟨hc, rfl⟩ | ⟨hc, rfl⟩ | ⟨hc, rfl⟩ | ⟨hc, rfl⟩ |
      ⟨hc, rfl⟩ | ⟨hc, rfl⟩ | ⟨hc, rfl⟩ <;>
      first
        | (right; right; exact ⟨_, rfl, by decide, by decide⟩)
        | (right; right; exact sudoOutput_shape r (parseInput input).2)
        | exact absurd hc h1
        | exact absurd hc h2

/-- C1.  For every line handed to the incremental renderer (every dispatch
result that is not a `CLEAR`/`RELOAD` sentinel, and likewise any plain-string
content), the tick sequence of `renderOutputLine` is finite (it is a list, one
tick per code unit), each tick's `revealedContent` is a strict prefix — segment
index ascending, then character index within the active segment — of the next
tick's, the final tick equals `finalContent` exactly, and the line's `complete`
flag is false at creation and through every tick and flips to true exactly at
the one final update. -/
theorem dispatched_reveal_monotone (r : RandStream) (input : JSString) (s : JSString)
    (h1 : (getCommandOutputR r input).content ≠ .str (ofStr "CLEAR"))
    (h2 : (getCommandOutputR r input).content ≠ .str (ofStr "RELOAD")) :
    List.Chain' ContentLT (revealTicks ((getCommandOutputR r input).content)) ∧
    (revealTicks ((getCommandOutputR r input).content)).getLastD
        ((getCommandOutputR r input).content) = (getCommandOutputR r input).content ∧
    (revealStates ((getCommandOutputR r input).content)).map Prod.snd =
      List.replicate ((revealTicks ((getCommandOutputR r input).content)).length + 1) false ++
        [true] ∧
    List.Chain' ContentLT (revealTicks (.str s)) ∧
    (revealTicks (.str s)).getLastD (.str s) = .str s := by
  rcases dispatch_content_shape r input with hc | hc | ⟨l, hc, hne, hall⟩
  · exact absurd hc h1
  · exact absurd hc h2
  · rw [hc]
    refine ⟨revealTicks_fmt_chain l, revealTicks_fmt_getLastD l _ hne hall,
      revealStates_flags _, revealTicks_str_chain s, ?_⟩
    by_cases hs : s = []
    · subst hs; rfl
    · exact revealTicks_str_getLastD s _ hs

/-- Witness for C1 at the dispatched input `x` (an unknown-command error line)
and the plain string `ab`. -/
theorem dispatched_reveal_monotone_witness :
    List.Chain' ContentLT (revealTicks ((getCommandOutputR (fun _ => 0) (ofStr "x")).content)) ∧
    (revealTicks ((getCommandOutputR (fun _ => 0) (ofStr "x")).content)).getLastD
        ((getCommandOutputR (fun _ => 0) (ofStr "x")).content) =
      (getCommandOutputR (fun _ => 0) (ofStr "x")).content ∧
    (revealStates ((getCommandOutputR (fun _ => 0) (ofStr "x")).content)).map Prod.snd =
      List.replicate
          ((revealTicks ((getCommandOutputR (fun _ => 0) (ofStr "x")).content)).length + 1)
          false ++ [true] ∧
    List.Chain' ContentLT (revealTicks (.str (ofStr "ab"))) ∧
    (revealTicks (.str (ofStr "ab"))).getLastD (.str (ofStr "ab")) = .str (ofStr "ab") :=
  dispatched_reveal_monotone (fun _ => 0) (ofStr "x") (ofStr "ab") (by decide) (by decide)

/-! ## Unicode (UTF-16) facts about the renderer -/

theorem formatToString_nil : formatToString [] = [] := rfl

theorem formatToString_cons (x : TextSegment) (l : List TextSegment) :
    formatToString (x :: l) = x.text ++ formatToString l := rfl

theorem formatToString_append (a b : List TextSegment) :
    formatToString (a ++ b) = formatToString a ++ formatToString b := by
  simp [formatToString, List.map_append, List.flatten_append]

/-- Every code unit of an intermediate revealed state comes from the source
segments. -/
theorem fmtTicks_mem_units :
    ∀ (rest done : List TextSegment), ∀ t ∈ fmtTicks done rest,
      ∀ u ∈ formatToString t, u ∈ formatToString done ∨ u ∈ formatToString rest := by
  intro rest
  induction rest with
  | nil => intro done t ht; rw [fmtTicks_nil] at ht; cases ht
  | cons s ss ih =>
    intro done t ht u hu
    rw [fmtTicks_cons, List.mem_append] at ht
    rcases ht with ht | ht
    · rw [List.mem_map] at ht
      obtain ⟨i, _, rfl⟩ := ht
      rw [formatToString_append] at hu
      rcases List.mem_append.mp hu with h | h
      · exact Or.inl h
      · right
        rw [formatToString_cons]
        refine List.mem_append.mpr (Or.inl ?_)
        have h' : u ∈ s.text.take (i + 1) := by
          simpa [formatToString_cons, formatToString_nil] using h
        exact List.take_subset _ _ h'
    · rcases ih (done ++ [s]) t ht u hu with h | h
      · rw [formatToString_append] at h
        rcases List.mem_append.mp h with h' | h'
        · exact Or.inl h'
        · right
          rw [formatToString_cons]
          refine List.mem_append.mpr (Or.inl ?_)
          simpa [formatToString_cons, formatToString_nil] using h'
      · right
        rw [formatToString_cons]
        exact List.mem_append.mpr (Or.inr h)

theorem isWF16_one (u : Nat) : isWF16 [u] = decide (u < 0xD800 ∨ 0xDFFF < u) := rfl

theorem isWF16_two (u v : Nat) (rest : List Nat) :
    isWF16 (u :: v :: rest) =
      if u < 0xD800 ∨ 0xDFFF < u then isWF16 (v :: rest)
      else decide (u ≤ 0xDBFF) && decide (0xDC00 ≤ v ∧ v ≤ 0xDFFF) && isWF16 rest := rfl

/-- A unit sequence without surrogates is well-formed UTF-16. -/
theorem noSurrogate_wf :
    ∀ l : List Nat, (∀ u ∈ l, u < 0xD800 ∨ 0xDFFF < u) → isWF16 l = true
  | [] => fun _ => rfl
  | [u] => fun h => by
    rw [isWF16_one]
    exact decide_eq_true (h u (List.mem_cons_self _ _))
  | u :: v :: rest => fun h => by
    rw [isWF16_two, if_pos (h u (List.mem_cons_self _ _))]
    exact noSurrogate_wf (v :: rest) fun w hw => h w (List.mem_cons_of_mem _ hw)

theorem contentUnits_str (s : JSString) : contentUnits (.str s) = s := rfl

theorem contentUnits_fmt (l : List TextSegment) :
    contentUnits (.fmt l) = formatToString l := rfl

/-- C3 (amended).  The renderer advances by UTF-16 code unit, not by code
point; for content whose code units contain no surrogates (all glyphs in the
Basic Multilingual Plane) every intermediate `revealedContent` therefore
consists only of whole Unicode code points.  (The counterexample shows that a
surrogate-pair glyph is split mid-character.) -/
theorem bmp_reveal_whole_codepoints (c : JSContent)
    (h : ∀ u ∈ contentUnits c, u < 0xD800 ∨ 0xDFFF < u) :
    ((revealTicks c).all fun t => isWF16 (contentUnits t)) = true := by
  rw [List.all_eq_true]
  intro t ht
  cases c with
  | str s =>
    rw [revealTicks_str, List.mem_map] at ht
    obtain ⟨i, _, rfl⟩ := ht
    apply noSurrogate_wf
    intro u hu
    rw [contentUnits_str] at hu
    exact h u (List.take_subset _ _ hu)
  | fmt l =>
    rw [revealTicks_fmt, List.mem_map] at ht
    obtain ⟨tl, htl, rfl⟩ := ht
    apply noSurrogate_wf
    intro u hu
    rw [contentUnits_fmt] at hu
    rcases fmtTicks_mem_units l [] tl htl u hu with h0 | h1
    · rw [formatToString_nil] at h0
      cases h0
    · exact h u h1

/-- Witness for C3's amended theorem on the BMP-only string `hi`. -/
theorem bmp_reveal_whole_codepoints_witness :
    ((revealTicks (.str (ofStr "hi"))).all fun t => isWF16 (contentUnits t)) = true :=
  bmp_reveal_whole_codepoints (.str (ofStr "hi")) (by decide)

/-- C3 (counterexample).  The first `projects` list item — a segment sequence
of the program's own output, as the sublist conjunct shows — contains the
non-BMP glyph 🔗 stored as a surrogate pair; its full content is well-formed
UTF-16, but the intermediate revealed state at tick 145 ends in an unpaired
high surrogate: the renderer slices by code unit and leaves the glyph split
mid-character, refuting the claim that every intermediate state consists only
of whole code points. -/
theorem surrogate_split_cex :
    createListItem 1 (ofStr "astar_msa_rust")
        (ofStr "PA-Star is a software that performs a parallel A-Star search to solve the Multiple Sequence Alignment (MSA) problem.")
        (ofStr "https://github.com/vncsmnl/astar_msa_rust") <:+: projectsOut ∧
    isWF16 (contentUnits (.fmt (createListItem 1 (ofStr "astar_msa_rust")
        (ofStr "PA-Star is a software that performs a parallel A-Star search to solve the Multiple Sequence Alignment (MSA) problem.")
        (ofStr "https://github.com/vncsmnl/astar_msa_rust")))) = true ∧
    ¬ (isWF16 (contentUnits ((revealTicks (.fmt (createListItem 1 (ofStr "astar_msa_rust")
        (ofStr "PA-Star is a software that performs a parallel A-Star search to solve the Multiple Sequence Alignment (MSA) problem.")
        (ofStr "https://github.com/vncsmnl/astar_msa_rust")))).getD 145 default)) = true) := by
  decide

/-! ## The renderer never creates lines (`Terminal.tsx` string branch) -/

theorem renderLineStates_nil (L : List TerminalLine) (lid : JSString) :
    renderLineStates L lid [] = [applyComplete L lid] := rfl

theorem renderLineStates_cons (L : List TerminalLine) (lid : JSString) (t : JSContent)
    (ts : List JSContent) :
    renderLineStates L lid (t :: ts) =
      applyDisplayed L lid t :: renderLineStates (applyDisplayed L lid t) lid ts := rfl

theorem applyDisplayed_length (L : List TerminalLine) (lid : JSString) (d : JSContent) :
    (applyDisplayed L lid d).length = L.length := List.length_map _ _

theorem applyComplete_length (L : List TerminalLine) (lid : JSString) :
    (applyComplete L lid).length = L.length := List.length_map _ _

/-- Every state of a reveal has exactly as many lines as the starting state:
the renderer never appends or removes a line. -/
theorem renderLineStates_lengths :
    ∀ (ts : List JSContent) (L : List TerminalLine) (lid : JSString),
      (renderLineStates L lid ts).map List.length =
        List.replicate (ts.length + 1) L.length := by
  intro ts
  induction ts with
  | nil =>
    intro L lid
    rw [renderLineStates_nil]
    simp [applyComplete_length]
  | cons t ts ih =>
    intro L lid
    rw [renderLineStates_cons, List.map_cons, ih, applyDisplayed_length, List.length_cons]
    rfl

/-- Mapping an id-guarded update over lines whose ids all differ from the
target leaves them unchanged. -/
theorem map_untouched (g : TerminalLine → TerminalLine) :
    ∀ (pre : List TerminalLine) (lid : JSString), (∀ p ∈ pre, p.id ≠ lid) →
      pre.map (fun p => if p.id = lid then g p else p) = pre := by
  intro pre
  induction pre with
  | nil => intro lid _; rfl
  | cons p ps ih =>
    intro lid h
    rw [List.map_cons, if_neg (h p (List.mem_cons_self _ _)),
      ih lid fun q hq => h q (List.mem_cons_of_mem _ hq)]

theorem applyDisplayed_snoc (pre : List TerminalLine) (q : TerminalLine) (lid : JSString)
    (d : JSContent) (hfresh : ∀ p ∈ pre, p.id ≠ lid) (hq : q.id = lid) :
    applyDisplayed (pre ++ [q]) lid d = pre ++ [{ q with displayedContent := d }] := by
  unfold applyDisplayed
  rw [List.map_append, map_untouched _ pre lid hfresh, List.map_singleton, if_pos hq]

theorem applyComplete_snoc (pre : List TerminalLine) (q : TerminalLine) (lid : JSString)
    (hfresh : ∀ p ∈ pre, p.id ≠ lid) (hq : q.id = lid) :
    applyComplete (pre ++ [q]) lid = pre ++ [{ q with isComplete := true }] := by
  unfold applyComplete
  rw [List.map_append, map_untouched _ pre lid hfresh, List.map_singleton, if_pos hq]

theorem update_update (q : TerminalLine) (x t : JSContent) :
    ({ ({ q with displayedContent := x }) with displayedContent := t } : TerminalLine) =
      { q with displayedContent := t } := rfl

/-- The final state of a reveal: the target line carries the last tick's
content (or its initial content if there was no tick) and is marked complete;
every other line is untouched. -/
theorem renderStates_final :
    ∀ (ts : List JSContent) (pre : List TerminalLine) (q : TerminalLine) (x : JSContent)
      (d : List TerminalLine), (∀ p ∈ pre, p.id ≠ q.id) →
      (renderLineStates (pre ++ [{ q with displayedContent := x }]) q.id ts).getLastD d =
        pre ++ [{ q with displayedContent := ts.getLastD x, isComplete := true }] := by
  intro ts
  induction ts with
  | nil =>
    intro pre q x d h
    rw [renderLineStates_nil, List.getLastD_cons, List.getLastD_nil,
      applyComplete_snoc pre { q with displayedContent := x } q.id h rfl]
    rfl
  | cons t ts ih =>
    intro pre q x d h
    rw [renderLineStates_cons,
      applyDisplayed_snoc pre { q with displayedContent := x } q.id t h rfl,
      update_update, List.getLastD_cons, List.getLastD_cons]
    exact ih pre q t _ h

/-- C5 (amended).  In `Terminal.tsx`'s `renderOutputLine`, plain-string content
— line breaks included — is revealed character by character into the single
pending Line it was created for: the transcript's line count is unchanged at
every update (no Line is synthesized or appended), and the final state shows
the full unsplit string on that one Line, marked complete, with every other
line untouched.  (Splitting string content on embedded line breaks into one
Line per row exists only in the alternate theme variant of the Terminal
component, not in the cited `src/client/src/components/Terminal.tsx`.) -/
theorem string_reveal_single_line (pre : List TerminalLine) (lid : JSString) (ty : LineType)
    (s : JSString) (hfresh : ∀ p ∈ pre, p.id ≠ lid) :
    (renderLineStates (pre ++ [⟨lid, ty, .str s, .str [], false⟩]) lid
        (revealTicks (.str s))).map List.length =
      List.replicate ((revealTicks (.str s)).length + 1) (pre.length + 1) ∧
    (renderLineStates (pre ++ [⟨lid, ty, .str s, .str [], false⟩]) lid
        (revealTicks (.str s))).getLastD [] =
      pre ++ [⟨lid, ty, .str s, .str s, true⟩] := by
  constructor
  · rw [renderLineStates_lengths]
    simp
  · have h2 := renderStates_final (revealTicks (.str s)) pre
      ⟨lid, ty, .str s, .str [], false⟩ (.str []) [] hfresh
    have h3 : (revealTicks (JSContent.str s)).getLastD (.str []) = .str s := by
      by_cases hs : s = []
      · subst hs; rfl
      · exact revealTicks_str_getLastD s _ hs
    rw [h3] at h2
    exact h2

/-- Witness for C5's amended theorem: the welcome banner plus one pending
string line. -/
theorem string_reveal_single_line_witness :
    (renderLineStates (welcomeLines ++ [⟨ofStr "output-5", .output, .str (ofStr "hello"),
        .str [], false⟩]) (ofStr "output-5") (revealTicks (.str (ofStr "hello")))).map
        List.length =
      List.replicate ((revealTicks (.str (ofStr "hello"))).length + 1)
        (welcomeLines.length + 1) ∧
    (renderLineStates (welcomeLines ++ [⟨ofStr "output-5", .output, .str (ofStr "hello"),
        .str [], false⟩]) (ofStr "output-5") (revealTicks (.str (ofStr "hello")))).getLastD
        [] =
      welcomeLines ++ [⟨ofStr "output-5", .output, .str (ofStr "hello"),
        .str (ofStr "hello"), true⟩] :=
  string_reveal_single_line welcomeLines (ofStr "output-5") .output (ofStr "hello")
    (by decide)

/-- C5 (counterexample).  The claim says a plain string with embedded line
breaks is first split into one Line per line break, each line after the first
newly created and appended to the transcript.  Rendering the string `a\nb`
(which contains the line-break unit 10) keeps the transcript at exactly one
line through every update, and the final single Line's `displayedContent` is
the unsplit string itself — no second Line is ever created or appended. -/
theorem string_reveal_no_split_cex :
    ofStr "a\nb" = [97, 10, 98] ∧
    (renderLineStates [⟨ofStr "out", .output, .str (ofStr "a\nb"), .str [], false⟩]
        (ofStr "out") (revealTicks (.str (ofStr "a\nb")))).map List.length = [1, 1, 1, 1] ∧
    (renderLineStates [⟨ofStr "out", .output, .str (ofStr "a\nb"), .str [], false⟩]
        (ofStr "out") (revealTicks (.str (ofStr "a\nb")))).getLastD [] =
      [⟨ofStr "out", .output, .str (ofStr "a\nb"), .str (ofStr "a\nb"), true⟩] := by
  decide
